import Mathlib

/-!
Verification of the letter-generator core (GENERADOR_DE_CARTAS).

Shallow embedding of the core functions of src/core/backend.py and
src/core/funcionalidades.py:
  - header normalization and slugs,
  - the synonym-driven column mapper,
  - the date resolver (Excel serial numbers and a fixed format list),
  - dataframe preparation,
  - DOCX table location, clearing and filling,
  - the run-safe placeholder substitution engine,
  - the per-group batch orchestrator.

Python strings are modelled as Lean String (lists of unicode characters),
dictionaries as insertion-ordered association lists, pandas dataframes as a
header list plus a list of rows of cell values, python-docx documents as a
structure of paragraphs (lists of formatting runs) and tables (a column count
plus rows of cell texts).  All definitions are executable.
-/

/-! ## Basic character/string utilities (Python str methods, re.sub) -/

/-- Python whitespace class (ASCII part), as matched by str.strip and re \s. -/
def isPySpace (c : Char) : Bool :=
  c = ' ' || c = '\t' || c = '\n' || c = '\x0d' || c = '\x0b' || c = '\x0c'

/-- Python str.strip: drop leading and trailing whitespace. -/
def pyStrip (cs : List Char) : List Char :=
  ((cs.dropWhile isPySpace).reverse.dropWhile isPySpace).reverse

/-- re.sub(r"\s+", " ", s): collapse each maximal whitespace run to one space. -/
def collapseWS : List Char → List Char
  | [] => []
  | [c] => if isPySpace c then [' '] else [c]
  | c1 :: c2 :: rest =>
    if isPySpace c1 && isPySpace c2 then collapseWS (c2 :: rest)
    else (if isPySpace c1 then ' ' else c1) :: collapseWS (c2 :: rest)

/-- Python str.lower restricted to the ASCII and Latin-1 Spanish repertoire
the repository's data uses. -/
def pyLowerChar (c : Char) : Char :=
  if 'A' ≤ c && c ≤ 'Z' then Char.ofNat (c.toNat + 32)
  else match c with
  | 'Á' => 'á' | 'É' => 'é' | 'Í' => 'í' | 'Ó' => 'ó' | 'Ú' => 'ú'
  | 'Ü' => 'ü' | 'Ñ' => 'ñ' | _ => c

/-- unidecode restricted to the Latin-1 Spanish repertoire used by the
repository (accent stripping; other characters pass through unchanged). -/
def deaccentChar (c : Char) : Char :=
  match c with
  | 'á' => 'a' | 'é' => 'e' | 'í' => 'i' | 'ó' => 'o' | 'ú' => 'u'
  | 'Á' => 'A' | 'É' => 'E' | 'Í' => 'I' | 'Ó' => 'O' | 'Ú' => 'U'
  | 'ü' => 'u' | 'Ü' => 'U' | 'ñ' => 'n' | 'Ñ' => 'N' | _ => c

/-- backend._norm: strip, lower, unidecode, then collapse whitespace runs. -/
def norm (s : String) : String :=
  ⟨collapseWS ((pyStrip s.data).map (fun c => deaccentChar (pyLowerChar c)))⟩

/-- Characters kept by slugify's character filter [A-Za-z0-9_\- ]. -/
def slugChar (c : Char) : Bool :=
  c.isAlphanum || c = '_' || c = '-' || c = ' '

/-- backend.slugify: unidecode(strip), drop disallowed characters, strip,
spaces to underscores, empty result becomes the fixed sentinel. -/
def slugify (text : String) : String :=
  let s1 := (pyStrip text.data).map deaccentChar
  let s2 := s1.filter slugChar
  let s3 := (pyStrip s2).map (fun c => if c = ' ' then '_' else c)
  if s3.isEmpty then "SIN_GRUPO" else ⟨s3⟩

/-- Does the pattern occur as a leading segment of the list? -/
def startsList : List Char → List Char → Bool
  | [], _ => true
  | _ :: _, [] => false
  | p :: ps, c :: cs => p = c && startsList ps cs

/-- Python membership test pat in s: substring occurrence. -/
def hasSubList (pat : List Char) : List Char → Bool
  | [] => pat.isEmpty
  | c :: rest => startsList pat (c :: rest) || hasSubList pat rest

/-- Python pat in s on strings. -/
def strContains (s pat : String) : Bool := hasSubList pat.data s.data

/-- One fuel-indexed step list of Python str.replace: replace each
non-overlapping occurrence of pat left to right.  Fuel is the length of the
subject, which bounds the number of steps since pat is nonempty. -/
def replaceFuel (pat rep : List Char) : Nat → List Char → List Char
  | 0, s => s
  | _ + 1, [] => []
  | fuel + 1, c :: rest =>
    if startsList pat (c :: rest) then
      rep ++ replaceFuel pat rep fuel (List.drop (pat.length - 1) rest)
    else
      c :: replaceFuel pat rep fuel rest

/-- Python str.replace(pat, rep) for nonempty pat (the placeholder keys used
by the repository are always brace-delimited, hence nonempty). -/
def pyReplace (s pat rep : String) : String :=
  if pat.data.isEmpty then s else ⟨replaceFuel pat.data rep.data s.data.length s.data⟩

/-! ## Date resolver (backend.parse_date / backend.format_date_dmy) -/

/-- Civil calendar to day count (days since 1970-01-01, proleptic Gregorian);
the standard era-based algorithm, all divisions on nonnegative values. -/
def daysFromCivil (y m d : Int) : Int :=
  let y1 := if m ≤ 2 then y - 1 else y
  let era := (if 0 ≤ y1 then y1 else y1 - 399) / 400
  let yoe := y1 - era * 400
  let mp := if 2 < m then m - 3 else m + 9
  let doy := (153 * mp + 2) / 5 + d - 1
  let doe := yoe * 365 + yoe / 4 - yoe / 100 + doy
  era * 146097 + doe - 719468

/-- Day count back to the civil calendar (year, month, day). -/
def civilFromDays (z0 : Int) : Int × Int × Int :=
  let z := z0 + 719468
  let era := (if 0 ≤ z then z else z - 146096) / 146097
  let doe := z - era * 146097
  let yoe := (doe - doe / 1460 + doe / 36524 - doe / 146096) / 365
  let y := yoe + era * 400
  let doy := doe - (365 * yoe + yoe / 4 - yoe / 100)
  let mp := (5 * doy + 2) / 153
  let d := doy - (153 * mp + 2) / 5 + 1
  let m := if mp < 10 then mp + 3 else mp - 9
  (if m ≤ 2 then y + 1 else y, m, d)

def isLeapYear (y : Int) : Bool :=
  y % 4 = 0 && (y % 100 ≠ 0 || y % 400 = 0)

def daysInMonth (y m : Int) : Int :=
  if m = 2 then (if isLeapYear y then 29 else 28)
  else if m = 4 || m = 6 || m = 9 || m = 11 then 30
  else 31

/-- Split a character list on a separator character (Python str.split(sep)). -/
def splitOnChar (sep : Char) : List Char → List (List Char)
  | [] => [[]]
  | c :: rest =>
    let r := splitOnChar sep rest
    if c = sep then [] :: r
    else
      match r with
      | [] => [[c]]
      | g :: gs => (c :: g) :: gs

/-- Numeric value of an all-digit nonempty character list. -/
def digitsVal : List Char → Option Nat
  | [] => none
  | cs => if cs.all Char.isDigit then some (cs.foldl (fun a c => a * 10 + (c.toNat - 48)) 0) else none

/-- strptime field %Y: exactly four digits, year at least 1 (datetime.MINYEAR). -/
def parseYearField (cs : List Char) : Option Int := do
  if cs.length = 4 then
    let v ← digitsVal cs
    if 1 ≤ v then pure (v : Int) else none
  else none

/-- strptime field %m: one or two digits, value 1..12. -/
def parseMonthField (cs : List Char) : Option Int := do
  if cs.length = 1 || cs.length = 2 then
    let v ← digitsVal cs
    if 1 ≤ v && v ≤ 12 then pure (v : Int) else none
  else none

/-- strptime field %d: one or two digits, value 1..31. -/
def parseDayField (cs : List Char) : Option Int := do
  if cs.length = 1 || cs.length = 2 then
    let v ← digitsVal cs
    if 1 ≤ v && v ≤ 31 then pure (v : Int) else none
  else none

/-- The field order of a three-field date format. -/
inductive DOrder | ymd | dmy | mdy
deriving DecidableEq

/-- datetime.strptime with a three-numeric-field format: split on the
separator, parse the three fields, and validate the day against the month
length as datetime construction does.  Returns a day count. -/
def tryFormat (ord : DOrder) (sep : Char) (s : List Char) : Option Int := do
  match splitOnChar sep s with
  | [a, b, c] =>
    let (fy, fm, fd) :=
      match ord with
      | DOrder.ymd => (a, b, c)
      | DOrder.dmy => (c, b, a)
      | DOrder.mdy => (c, a, b)
    let y ← parseYearField fy
    let m ← parseMonthField fm
    let d ← parseDayField fd
    if d ≤ daysInMonth y m then pure (daysFromCivil y m d) else none
  | _ => none

/-- The fixed ordered format list of backend.parse_date:
Y-m-d, d/m/Y, d-m-Y, Y/m/d, m/d/Y, d.m.Y. -/
def formatList : List (DOrder × Char) :=
  [(DOrder.ymd, '-'), (DOrder.dmy, '/'), (DOrder.dmy, '-'),
   (DOrder.ymd, '/'), (DOrder.mdy, '/'), (DOrder.dmy, '.')]

/-- Try an ordered list of formats, first success wins. -/
def tryFormats : List (DOrder × Char) → List Char → Option Int
  | [], _ => none
  | f :: fs, s =>
    match tryFormat f.1 f.2 s with
    | some v => some v
    | none => tryFormats fs s

/-- Modelled from the spec: the lenient day-first general parse delegated to
the external library (pandas.to_datetime with dayfirst and coercion of
errors to NaT), which is not part of this repository's sources.  The library
rejects strings containing no digit at all (the case the claims exercise);
for digit-bearing strings the model retries the explicit format list and
otherwise yields NaT (none). -/
def lenientDayfirstParse (s : List Char) : Option Int :=
  if s.any Char.isDigit then tryFormats formatList s else none

/-- A spreadsheet cell value: missing (None/NaN), numeric, or a string. -/
inductive CellValue
  | none
  | num (q : ℚ)
  | str (s : String)
deriving DecidableEq

/-- Python int(): truncation toward zero (Int T-division of num by den). -/
def ratTrunc (q : ℚ) : Int := q.num / (q.den : Int)

/-- The spreadsheet serial-date epoch 1899-12-30 as a day count. -/
def excelEpoch : Int := daysFromCivil 1899 12 30

/-- backend.parse_date: None/NaN to none; numbers as Excel serial day offsets
from 1899-12-30 truncated to whole days; strings through the fixed format
list, then the lenient day-first fallback.  Timestamps are day counts. -/
def parse_date (v : CellValue) : Option Int :=
  match v with
  | CellValue.none => Option.none
  | CellValue.num q => some (excelEpoch + ratTrunc q)
  | CellValue.str s =>
    let t := pyStrip s.data
    match tryFormats formatList t with
    | some d => some d
    | Option.none => lenientDayfirstParse t

/-- Zero-padded two-digit rendering (strftime %d / %m). -/
def pad2 (n : Int) : String :=
  if n < 10 then "0" ++ toString n else toString n

/-- Four-digit year rendering (strftime %Y; years here are 1..9999). -/
def pad4 (n : Int) : String :=
  if n < 10 then "000" ++ toString n
  else if n < 100 then "00" ++ toString n
  else if n < 1000 then "0" ++ toString n
  else toString n

/-- backend.format_date_dmy: none (NaT) to the empty string, otherwise
strftime dd/mm/yyyy. -/
def format_date_dmy (ts : Option Int) : String :=
  match ts with
  | Option.none => ""
  | some z =>
    let c := civilFromDays z
    pad2 c.2.2 ++ "/" ++ pad2 c.2.1 ++ "/" ++ pad4 c.1

/-! ## Column mapper (backend.SYNONYMS / backend.guess_mapping) -/

/-- The six semantic roles of the mapper. -/
inductive Role | actor | grupo | mesa | nivel | fecha | dato
deriving DecidableEq

/-- The dictionary key used for a role in the mapping. -/
def roleKey : Role → String
  | Role.actor => "actor"
  | Role.grupo => "grupo"
  | Role.mesa => "mesa"
  | Role.nivel => "nivel"
  | Role.fecha => "fecha"
  | Role.dato => "dato"

/-- backend.SYNONYMS, verbatim. -/
def SYNONYMS : Role → List String
  | Role.actor =>
    ["actor", "columna a", "a", "interesado", "responsable", "nombre del actor"]
  | Role.grupo =>
    ["dependencia", "secretaria", "secretaría", "secretaria de", "entidad", "despacho",
     "direccion", "dirección", "institucion", "institución", "dependencia/entidad",
     "institucional", "grupo", "responsable"]
  | Role.mesa =>
    ["nombre de la mesa", "nombre mesa", "mesa", "tema", "asunto", "nombre mesa/tema",
     "nombre", "actividad"]
  | Role.nivel =>
    ["nivel", "nivel de la mesa", "compromiso", "tipo", "categoria", "categoría"]
  | Role.fecha =>
    ["fecha", "fecha mesa", "fecha programada", "dia", "día", "dia mesa",
     "fecha de realizacion", "fecha de realización", "fecha programada mesa"]
  | Role.dato =>
    ["dato transformador", "dato", "transformador", "descripcion dato",
     "descripción dato", "datos transformadores", "resultado esperado"]

/-- First header whose normalized text equals one of the synonyms
(the exact pass of guess_mapping). -/
def pickExact (headers : List String) (syns : List String) : Option String :=
  headers.find? (fun c => syns.contains (norm c))

/-- First header whose normalized text contains some synonym as a substring
(the fallback pass of guess_mapping). -/
def pickBySubstring (headers : List String) (syns : List String) : Option String :=
  headers.find? (fun c => syns.any (fun a => strContains (norm c) a))

/-- Exact match first, then substring match. -/
def pickRole (headers : List String) (syns : List String) : Option String :=
  match pickExact headers syns with
  | some c => some c
  | Option.none => pickBySubstring headers syns

/-- The institutional-entity keywords of the secondary grupo fallback. -/
def grupoFallbackKeys : List String :=
  ["entidad", "secretaria", "secretaría", "dependencia", "despacho", "grupo"]

/-- The secondary grupo fallback: first header whose normalized text contains
one of the institutional keywords. -/
def grupoFallback (headers : List String) : Option String :=
  headers.find? (fun c => grupoFallbackKeys.any (fun x => strContains (norm c) x))

/-- backend.guess_mapping: returns the role-to-column dictionary as an
insertion-ordered association list with the keys of the Python dict
(actor, mesa, nivel, fecha, dato, grupo), each value an optional column. -/
def guess_mapping (headers : List String) : List (String × Option String) :=
  let base := fun r => pickRole headers (SYNONYMS r)
  let grupoVal :=
    match base Role.grupo with
    | some c => some c
    | Option.none => grupoFallback headers
  [("actor", base Role.actor), ("mesa", base Role.mesa), ("nivel", base Role.nivel),
   ("fecha", base Role.fecha), ("dato", base Role.dato), ("grupo", grupoVal)]

/-! ## Dataframe preparation (backend.prepare_dataframe) -/

/-- A pandas dataframe: a header list and rows of cell values; the cell of a
row at a column label is the entry at the label's first position. -/
structure DF where
  cols : List String
  rows : List (List CellValue)

/-- Cell of a row at a column label (first occurrence of the label). -/
def colVal (cols : List String) (row : List CellValue) (c : String) : CellValue :=
  match cols.indexOf? c with
  | some i => row.getD i CellValue.none
  | Option.none => CellValue.none

/-- The five required roles checked by prepare_dataframe, in loop order. -/
def requiredRoles : List String := ["actor", "mesa", "nivel", "fecha", "dato"]

/-- The required-column check of prepare_dataframe for one role key:
the key is absent from the mapping, or maps to None, or maps to a column
label that is not among the dataframe's headers. -/
def roleFails (df : DF) (mapping : List (String × Option String)) (k : String) : Bool :=
  match List.lookup k mapping with
  | Option.none => true
  | some Option.none => true
  | some (some c) => !(df.cols.contains c)

/-- The truthy grupo column of the mapping, if any (Python mapping.get("grupo")
being truthy: present, not None, and not the empty string). -/
def grupoCol (mapping : List (String × Option String)) : Option String :=
  match List.lookup "grupo" mapping with
  | some (some c) => if c = "" then Option.none else some c
  | _ => Option.none

/-- A normalized row of the prepared dataframe:
ACTOR, optional GRUPO, MESA, NIVEL, FECHA, DATO, _FECHA_TS, FECHA_FMT. -/
structure PRow where
  actor : CellValue
  grupo : Option CellValue
  mesa : CellValue
  nivel : CellValue
  fecha : CellValue
  dato : CellValue
  fechaTs : Option Int
  fechaFmt : String
deriving DecidableEq

/-- Column label a required role maps to, after the check has passed. -/
def roleCol (mapping : List (String × Option String)) (k : String) : String :=
  match List.lookup k mapping with
  | some (some c) => c
  | _ => ""

/-- Project one raw row through the mapping, filling the canonical timestamp
and display fields with the date resolver. -/
def projectRow (df : DF) (mapping : List (String × Option String)) (row : List CellValue) : PRow :=
  let get := fun k => colVal df.cols row (roleCol mapping k)
  let fecha := get "fecha"
  let ts := parse_date fecha
  { actor := get "actor"
    grupo := (grupoCol mapping).map (fun c => colVal df.cols row c)
    mesa := get "mesa"
    nivel := get "nivel"
    fecha := fecha
    dato := get "dato"
    fechaTs := ts
    fechaFmt := format_date_dmy ts }

/-- backend.prepare_dataframe.  Raises the required-column ValueError for the
first failing required role; afterwards the column selection df[cols] raises
a KeyError when the truthy grupo column is absent from the headers; otherwise
projects every row. -/
def prepare_dataframe (df : DF) (mapping : List (String × Option String)) :
    Except String (List PRow) :=
  match requiredRoles.find? (roleFails df mapping) with
  | some k => Except.error ("Columna requerida no encontrada para '" ++ k ++ "'.")
  | Option.none =>
    match grupoCol mapping with
    | some c =>
      if df.cols.contains c then Except.ok (df.rows.map (projectRow df mapping))
      else Except.error ("KeyError: '" ++ c ++ "'")
    | Option.none => Except.ok (df.rows.map (projectRow df mapping))

/-! ## DOCX model: runs, paragraphs, tables, documents -/

/-- A formatting run: its text plus an opaque style tag (the formatting the
substitution engine must not disturb). -/
structure Run where
  text : String
  style : Nat
deriving DecidableEq

/-- A paragraph is its list of runs. -/
def Paragraph := List Run
deriving DecidableEq

/-- A DOCX table: its column count and its rows of cell texts
(row 0 is the header row). -/
structure Table where
  cols : Nat
  rows : List (List String)
deriving DecidableEq

/-- A DOCX document: body paragraphs and tables. -/
structure Doc where
  paragraphs : List (List Run)
  tables : List Table
deriving DecidableEq

/-! ## Table locator (backend._header_matches / backend.find_target_table) -/

/-- backend.EXPECTED_HEADERS, verbatim. -/
def EXPECTED_HEADERS : List String :=
  ["nombre de la mesa", "nivel", "fecha", "dato transformador"]

/-- backend._header_matches: a table with no rows never matches; otherwise
every expected phrase must be satisfied by some header-row cell, by equality
of normalizations or by containment of the phrase in the normalized cell. -/
def header_matches (t : Table) : Bool :=
  match t.rows with
  | [] => false
  | hdr :: _ =>
    EXPECTED_HEADERS.all (fun exp =>
      (hdr.map norm).any (fun h => h = norm exp || strContains h exp))

/-- The scan loop of find_target_table over table indices: return the first
header-matching table's index, remembering the last four-column table's index
as the fallback candidate. -/
def findScanIdx : List Table → Nat → Option Nat → Option Nat
  | [], _, cand => cand
  | t :: rest, i, cand =>
    if header_matches t then some i
    else findScanIdx rest (i + 1) (if t.cols = 4 then some i else cand)

/-- backend.find_target_table, as an index: a preferred index wins immediately
when nonnegative, in range and on a four-column table; otherwise the scan. -/
def find_target_index (tables : List Table) (preferIdx : Option Int) : Option Nat :=
  match preferIdx with
  | Option.none => findScanIdx tables 0 Option.none
  | some i =>
    match tables[i.toNat]? with
    | some t =>
      if 0 ≤ i && t.cols = 4 then some i.toNat else findScanIdx tables 0 Option.none
    | Option.none => findScanIdx tables 0 Option.none

/-- backend.find_target_table, as a table value. -/
def find_target_table (tables : List Table) (preferIdx : Option Int) : Option Table :=
  (find_target_index tables preferIdx).bind (fun i => tables[i]?)

/-! ## Table populator (backend.clear_table_keep_header / backend.fill_table) -/

/-- backend.clear_table_keep_header: pop trailing rows while more than one
row remains (a row-less table stays row-less). -/
def clear_table_keep_header (t : Table) : Table :=
  { t with rows := t.rows.take 1 }

/-- row.cells[i].text = v: in-bounds write, or an IndexError (none). -/
def setCellText (cells : List String) (i : Nat) (v : String) : Option (List String) :=
  if i < cells.length then some (cells.set i v) else none

/-- Write the first min(4, len r) values of a data row into a fresh row of
table cells (add_row gives one empty cell per table column); a value of None
becomes the empty string, values are written as their string form. -/
def writeRow (cols : Nat) (r : List (Option String)) : Option (List String) :=
  (List.range (min 4 r.length)).foldlM
    (fun cells i => setCellText cells i (((r.getD i Option.none)).getD ""))
    (List.replicate cols "")

/-- The loop of fill_table: write each data row into a fresh row of cells,
stopping at the first IndexError. -/
def fillRowsAux (cols : Nat) : List (List (Option String)) → Option (List (List String))
  | [] => some []
  | r :: rs =>
    match writeRow cols r with
    | some cs => (fillRowsAux cols rs).map (fun ns => cs :: ns)
    | Option.none => none

/-- backend.fill_table: append one written row per data row; a cell write out
of bounds is the IndexError of row.cells[i] (none). -/
def fill_table (t : Table) (rows : List (List (Option String))) : Option Table :=
  (fillRowsAux t.cols rows).map (fun ns => { t with rows := t.rows ++ ns })

/-! ## Placeholder engine (funcionalidades._replace_placeholders_runsafe) -/

/-- The token dictionary: each mapping key wrapped in double braces. -/
def subTokens (m : List (String × String)) : List (String × String) :=
  m.map (fun kv => ("\x7b\x7b" ++ kv.1 ++ "\x7d\x7d", kv.2))

/-- The replacement loop over the concatenated paragraph text: for each token
in dictionary order, if it occurs in the current text, replace every
occurrence and record that a change happened. -/
def applyTokens (tokens : List (String × String)) (full : String) : String × Bool :=
  tokens.foldl
    (fun acc kv =>
      if strContains acc.1 kv.1 then (pyReplace acc.1 kv.1 kv.2, true) else acc)
    (full, false)

/-- Concatenated text of a paragraph's runs. -/
def concatRuns (p : List Run) : String :=
  p.foldl (fun acc r => acc ++ r.text) ""

/-- funcionalidades._replace_in_paragraph (normalize_runs=True): concatenate
the run texts, replace all tokens, and only if something changed write the
substituted text into the first run and empty all later runs (adding a run to
a run-less paragraph). -/
def replaceInParagraph (tokens : List (String × String)) (p : List Run) : List Run :=
  if tokens.isEmpty then p
  else
    let res := applyTokens tokens (concatRuns p)
    if res.2 then
      match p with
      | [] => [⟨res.1, 0⟩]
      | r0 :: rest => ⟨res.1, r0.style⟩ :: rest.map (fun r => ⟨"", r.style⟩)
    else p

/-- The engine applied to a table cell's text (a cell behaves as a paragraph
holding its text in a single run). -/
def cellReplaceText (tokens : List (String × String)) (s : String) : String :=
  (applyTokens tokens s).1

/-- funcionalidades._replace_placeholders_runsafe over a whole document: every
body paragraph and every table-cell text. -/
def replace_placeholders_runsafe (doc : Doc) (m : List (String × String)) : Doc :=
  let tokens := subTokens m
  { paragraphs := doc.paragraphs.map (replaceInParagraph tokens)
    tables := doc.tables.map (fun t =>
      { t with rows := t.rows.map (fun row => row.map (cellReplaceText tokens)) }) }

/-! ## Group letter builder (funcionalidades.build_letter_bytes) -/

/-- funcionalidades.build_letter_bytes: locate the target table (RuntimeError
when none qualifies), clear it keeping the header, fill it (an out-of-bounds
cell write is an IndexError), then apply placeholder substitution when a
nonempty placeholder dictionary was supplied.  The produced document stands
for the serialized bytes. -/
def build_letter_bytes (template : Doc) (rows : List (List (Option String)))
    (placeholders : Option (List (String × String))) (tableIndex : Option Int) :
    Except String Doc :=
  match find_target_index template.tables tableIndex with
  | Option.none =>
    Except.error "No se encontró una tabla válida (4 columnas) en la plantilla."
  | some i =>
    match template.tables[i]? with
    | Option.none => Except.error "list index out of range"
    | some t =>
      match fill_table (clear_table_keep_header t) rows with
      | Option.none => Except.error "list index out of range"
      | some t2 =>
        let doc1 : Doc := { template with tables := template.tables.set i t2 }
        match placeholders with
        | some m => Except.ok (if m.isEmpty then doc1 else replace_placeholders_runsafe doc1 m)
        | Option.none => Except.ok doc1

/-! ## Batch orchestrator (funcionalidades.generate_letters_per_group) -/

/-- pd.isna on a cell value. -/
def cvIsNa : CellValue → Bool
  | CellValue.none => true
  | _ => false

/-- Python str() of a cell value (numeric rendering is only a stand-in: the
claims never display numeric cells). -/
def cvStr : CellValue → String
  | CellValue.none => "nan"
  | CellValue.num q => if q.den = 1 then toString q.num else toString q
  | CellValue.str s => s

/-- funcionalidades._rows_from_group: the four displayed columns
MESA, NIVEL, FECHA_FMT, DATO of each row, NaN as the empty string. -/
def rows_from_group (gdf : List PRow) : List (List (Option String)) :=
  gdf.map (fun r =>
    [some (if cvIsNa r.mesa then "" else cvStr r.mesa),
     some (if cvIsNa r.nivel then "" else cvStr r.nivel),
     some r.fechaFmt,
     some (if cvIsNa r.dato then "" else cvStr r.dato)])

/-- Must a row with timestamp a be placed strictly before one with timestamp
b?  pandas sort_values on _FECHA_TS with na_position last: null timestamps
never precede, non-null precede null, and two values compare ascending or
descending per the newest-first flag. -/
def tsBefore (newestFirst : Bool) : Option Int → Option Int → Bool
  | Option.none, _ => false
  | some _, Option.none => true
  | some x, some y => if newestFirst then y < x else x < y

/-- Insert a row into an already sorted list (stable: never jumps over an
equal-keyed row). -/
def insertRowSorted (nf : Bool) (x : PRow) : List PRow → List PRow
  | [] => [x]
  | y :: ys =>
    if tsBefore nf x.fechaTs y.fechaTs then x :: y :: ys
    else y :: insertRowSorted nf x ys

/-- The global date sort of generate_letters_per_group. -/
def sortRows (nf : Bool) (rows : List PRow) : List PRow :=
  rows.foldr (insertRowSorted nf) []

/-- Distinct values in first-appearance order, with an accumulator of values
already seen. -/
def dedupFirstAux : List (Option String) → List (Option String) → List (Option String)
  | [], _ => []
  | x :: xs, seen =>
    if seen.contains x then dedupFirstAux xs seen
    else x :: dedupFirstAux xs (x :: seen)

/-- Distinct values in first-appearance order (pandas group keys before
sorting). -/
def dedupFirst (l : List (Option String)) : List (Option String) :=
  dedupFirstAux l []

/-- Python string comparison: lexicographic by code point. -/
def charListBefore : List Char → List Char → Bool
  | [], _ :: _ => true
  | _, [] => false
  | a :: as, b :: bs => a.toNat < b.toNat || (a = b && charListBefore as bs)

/-- Python a < b on strings. -/
def strBefore (a b : String) : Bool := charListBefore a.data b.data

/-- Group-key order of pandas groupby iteration: keys ascending, the NaN key
last. -/
def keyBefore : Option String → Option String → Bool
  | Option.none, _ => false
  | some _, Option.none => true
  | some a, some b => strBefore a b

def insertKeySorted (x : Option String) : List (Option String) → List (Option String)
  | [] => [x]
  | y :: ys => if keyBefore x y then x :: y :: ys else y :: insertKeySorted x ys

def sortKeys (ks : List (Option String)) : List (Option String) :=
  ks.foldr insertKeySorted []

/-- pandas groupby(group_field, dropna=False) over the date-sorted frame:
one group per distinct key, iterated in ascending key order with the NaN
group last, each group holding its rows in frame order. -/
def groupsOf (rows : List PRow) (f : PRow → Option String) :
    List (Option String × List PRow) :=
  (sortKeys (dedupFirst (rows.map f))).map
    (fun k => (k, rows.filter (fun r => f r = k)))

/-- Display name of a group key: the NaN key gets the sentinel name. -/
def grpDisplay : Option String → String
  | Option.none => "(Sin grupo)"
  | some s => s

/-- Python dict assignment d[k] = v on an insertion-ordered association list:
overwrite in place, or append a new key. -/
def insertKV (m : List (String × String)) (k : String) (v : String) :
    List (String × String) :=
  if m.any (fun p => p.1 = k) then
    m.map (fun p => if p.1 = k then (k, v) else p)
  else m ++ [(k, v)]

/-- Python dict assignment for document outputs. -/
def insertKVDoc (m : List (String × Doc)) (k : String) (v : Doc) :
    List (String × Doc) :=
  if m.any (fun p => p.1 = k) then
    m.map (fun p => if p.1 = k then (k, v) else p)
  else m ++ [(k, v)]

/-- The output filename of a group. -/
def groupFname (name : String) : String := "CARTA_" ++ slugify name ++ ".docx"

/-- The letter build performed for one group by the orchestrator's loop body:
the group's display rows and its placeholder dictionary, if one is present
under the group's display name. -/
def groupBuild (template : Doc) (phs : List (String × List (String × String)))
    (tidx : Option Int) (g : Option String × List PRow) : Except String Doc :=
  build_letter_bytes template (rows_from_group g.2)
    (List.lookup (grpDisplay g.1) phs) tidx

/-- The aggregated result of a batch run: outputs by filename, errors by
group name, and the summary rows (group name, row count). -/
structure GenResult where
  outputs : List (String × Doc)
  errors : List (String × String)
  index : List (String × Nat)
deriving DecidableEq

/-- One iteration of the orchestrator's group loop. -/
def generateStep (template : Doc) (phs : List (String × List (String × String)))
    (tidx : Option Int) (acc : GenResult) (g : Option String × List PRow) :
    GenResult :=
  let name := grpDisplay g.1
  match groupBuild template phs tidx g with
  | Except.ok doc =>
    { acc with
      outputs := insertKVDoc acc.outputs (groupFname name) doc
      index := acc.index ++ [(name, (rows_from_group g.2).length)] }
  | Except.error e =>
    { acc with errors := insertKV acc.errors name e }

/-- Stable insertion into the summary sorted by group name. -/
def insertIdxSorted (x : String × Nat) : List (String × Nat) → List (String × Nat)
  | [] => [x]
  | y :: ys => if strBefore x.1 y.1 then x :: y :: ys else y :: insertIdxSorted x ys

/-- index_df.sort_values("Grupo"). -/
def sortIndex (l : List (String × Nat)) : List (String × Nat) :=
  l.foldr insertIdxSorted []

/-- funcionalidades.generate_letters_per_group: sort all rows by the canonical
timestamp (direction per newest-first, nulls last), partition into groups,
build one letter per group catching per-group failures, and return outputs,
errors and the summary sorted by group name. -/
def generate_letters_per_group (work : List PRow) (template : Doc)
    (groupKey : PRow → Option String)
    (phs : List (String × List (String × String)))
    (tidx : Option Int) (newestFirst : Bool) : GenResult :=
  let sorted := sortRows newestFirst work
  let groups := groupsOf sorted groupKey
  let r := groups.foldl (generateStep template phs tidx) ⟨[], [], []⟩
  { r with index := sortIndex r.index }

/-! ## Derived helpers and sample data used by the verification -/

/-- Index of the last four-column table of a list, if any (the value the scan
loop's fallback candidate holds at the end). -/
def lastIdx4 : List Table → Option Nat
  | [] => none
  | t :: rest =>
    match lastIdx4 rest with
    | some j => some (j + 1)
    | Option.none => if t.cols = 4 then some 0 else none

/-- A template table whose header row carries the four expected phrases. -/
def sampleGoodTable : Table :=
  ⟨4, [["nombre de la mesa", "nivel", "fecha", "dato transformador"]]⟩

/-- A three-column table whose header row still satisfies all four expected
phrases (two phrases share the last cell). -/
def sampleThreeColTable : Table :=
  ⟨3, [["nombre de la mesa", "nivel", "fecha dato transformador"]]⟩

/-- A five-column table whose header row satisfies the expected phrases. -/
def sampleFiveColTable : Table :=
  ⟨5, [["nombre de la mesa", "nivel", "fecha", "dato transformador", "extra"]]⟩

/-- A four-column table with a non-matching header. -/
def samplePlainTable : Table := ⟨4, [["x", "y", "z", "w"]]⟩

/-- A template document holding one qualifying table. -/
def sampleTemplate : Doc := ⟨[], [sampleGoodTable]⟩

/-- A template document with no tables at all. -/
def emptyTemplate : Doc := ⟨[], []⟩

/-- A normalized sample row with a given actor and timestamp. -/
def sampleRow (key : String) (ts : Option Int) : PRow :=
  { actor := CellValue.str key, grupo := Option.none, mesa := CellValue.str "m",
    nivel := CellValue.str "n", fecha := CellValue.none, dato := CellValue.str "d",
    fechaTs := ts, fechaFmt := format_date_dmy ts }

/-- Grouping by the string value of the ACTOR column. -/
def actorKey (r : PRow) : Option String :=
  match r.actor with
  | CellValue.none => Option.none
  | v => some (cvStr v)

/-- Sample rows dated 2024-01-01, 2024-03-01 and undated. -/
def rowJan : PRow := sampleRow "A" (some (daysFromCivil 2024 1 1))

def rowMar : PRow := sampleRow "B" (some (daysFromCivil 2024 3 1))

def rowNull : PRow := sampleRow "C" Option.none

/-- The non-integral rational 5/2, given in lowest terms so that kernel
evaluation never needs gcd normalization. -/
def halfFive : ℚ := ⟨5, 2, by norm_num, by norm_num⟩

/-- Whether the letter build of a group succeeds. -/
def buildOk (template : Doc) (phs : List (String × List (String × String)))
    (tidx : Option Int) (g : Option String × List PRow) : Bool :=
  match groupBuild template phs tidx g with
  | Except.ok _ => true
  | Except.error _ => false

/-- The document produced for a successfully built group (the template on the
unreachable failure branch). -/
def buildDoc (template : Doc) (phs : List (String × List (String × String)))
    (tidx : Option Int) (g : Option String × List PRow) : Doc :=
  match groupBuild template phs tidx g with
  | Except.ok d => d
  | Except.error _ => template

/-- The message recorded for a failed group (empty on the unreachable success
branch). -/
def buildErr (template : Doc) (phs : List (String × List (String × String)))
    (tidx : Option Int) (g : Option String × List PRow) : String :=
  match groupBuild template phs tidx g with
  | Except.ok _ => ""
  | Except.error e => e

/-- Decidable equality on results, so that concrete runs can be checked by
evaluation. -/
instance exceptDecEq {ε α : Type} [DecidableEq ε] [DecidableEq α] :
    DecidableEq (Except ε α) := fun a b =>
  match a, b with
  | Except.error e1, Except.error e2 =>
    if h : e1 = e2 then isTrue (by rw [h])
    else isFalse (fun hc => h (Except.error.inj hc))
  | Except.ok x, Except.ok y =>
    if h : x = y then isTrue (by rw [h])
    else isFalse (fun hc => h (Except.ok.inj hc))
  | Except.error e1, Except.ok y => isFalse (fun hc => Except.noConfusion hc)
  | Except.ok x, Except.error e2 => isFalse (fun hc => Except.noConfusion hc)

/-- A dataframe carrying the five required columns. -/
def sampleDF : DF :=
  { cols := ["A", "M", "N", "F", "D"]
    rows := [[CellValue.str "alice", CellValue.str "mesa uno", CellValue.str "alto",
              CellValue.str "15/03/2024", CellValue.str "dato uno"]] }

/-- A mapping resolving the five required roles and leaving grupo unset. -/
def sampleMapping : List (String × Option String) :=
  [("actor", some "A"), ("mesa", some "M"), ("nivel", some "N"),
   ("fecha", some "F"), ("dato", some "D"), ("grupo", Option.none)]

/-- A mapping resolving the five required roles but pointing grupo at a
column that the dataframe does not have. -/
def grupoBadMapping : List (String × Option String) :=
  [("actor", some "A"), ("mesa", some "M"), ("nivel", some "N"),
   ("fecha", some "F"), ("dato", some "D"), ("grupo", some "G")]

/-! ## Helper lemmas -/

theorem concatRuns_acc (l : List Run) :
    ∀ acc : String, List.foldl (fun a r => a ++ r.text) acc l
      = acc ++ List.foldl (fun a r => a ++ r.text) "" l := by
  induction l with
  | nil => intro acc; simp
  | cons r rest ih =>
    intro acc
    simp only [List.foldl_cons]
    rw [ih (acc ++ r.text), ih ("" ++ r.text)]
    simp [String.append_assoc]

theorem concatRuns_cons (r : Run) (rest : List Run) :
    concatRuns (r :: rest) = r.text ++ concatRuns rest := by
  unfold concatRuns
  simp only [List.foldl_cons]
  rw [concatRuns_acc rest ("" ++ r.text)]
  simp

theorem concatRuns_blank (l : List Run) :
    concatRuns (l.map (fun r => ⟨"", r.style⟩)) = "" := by
  induction l with
  | nil => rfl
  | cons r rest ih => simpa [concatRuns_cons] using ih

theorem map_text_blank (l : List Run) :
    (l.map (fun r => (⟨"", r.style⟩ : Run))).map Run.text = List.replicate l.length "" := by
  induction l with
  | nil => rfl
  | cons r rest ih =>
    simp only [List.map_cons, List.length_cons, List.replicate_succ]
    exact congrArg (fun l => "" :: l) ih

theorem applyTokens_no_occur (tokens : List (String × String)) (s : String)
    (h : ∀ kv ∈ tokens, strContains s kv.1 = false) :
    applyTokens tokens s = (s, false) := by
  induction tokens with
  | nil => rfl
  | cons kv rest ih =>
    have h0 := h kv (by simp)
    have hrest := ih (fun x hx => h x (by simp [hx]))
    unfold applyTokens at hrest ⊢
    simpa [List.foldl_cons, h0] using hrest

/-! ## Claim theorems -/

/-- Claim C4: composing the display formatter with the date parser sends the
numeric serial 1 to 31/12/1899 (day offsets from the 1899-12-30 epoch,
truncated to whole days: serial 5/2 behaves as 2 days), the string 15/03/2024
to itself (the day-first format is tried before the month-first one, so the
ambiguous 05/03/2024 parses as March 5th), and the unparseable string
"not a date" to the empty string, with no exception. -/
theorem C4_date_resolver_composition :
    format_date_dmy (parse_date (CellValue.num 1)) = "31/12/1899" ∧
    format_date_dmy (parse_date (CellValue.str "15/03/2024")) = "15/03/2024" ∧
    format_date_dmy (parse_date (CellValue.str "not a date")) = "" ∧
    parse_date (CellValue.num halfFive) = some (excelEpoch + 2) ∧
    parse_date (CellValue.str "05/03/2024") = some (daysFromCivil 2024 3 5) := by
  refine ⟨by decide, by decide, by decide, by decide, by decide⟩

/-- Claim C1: for every paragraph and token map, on the placeholder engine's
changed path the fully substituted concatenation is written into the first
run (keeping its style), every later run is emptied (keeping styles), and the
paragraph's concatenated text becomes exactly the substituted string; in the
split-token scenario with runs holding the two halves of a NAME token and the
map sending NAME to Alice, the result is concatenated text Alice carried by
exactly one non-empty run. -/
theorem C1_runsafe_substitution (m : List (String × String)) (p : List Run)
    (hm : subTokens m ≠ []) (hp : p ≠ [])
    (hch : (applyTokens (subTokens m) (concatRuns p)).2 = true) :
    (replaceInParagraph (subTokens m) p).map Run.text
      = (applyTokens (subTokens m) (concatRuns p)).1 :: List.replicate (p.length - 1) "" ∧
    (replaceInParagraph (subTokens m) p).map Run.style = p.map Run.style ∧
    concatRuns (replaceInParagraph (subTokens m) p)
      = (applyTokens (subTokens m) (concatRuns p)).1 ∧
    replaceInParagraph (subTokens [("NAME", "Alice")])
        [⟨"\x7b\x7bNA", 0⟩, ⟨"ME\x7d\x7d", 1⟩] = [⟨"Alice", 0⟩, ⟨"", 1⟩] ∧
    concatRuns (replaceInParagraph (subTokens [("NAME", "Alice")])
        [⟨"\x7b\x7bNA", 0⟩, ⟨"ME\x7d\x7d", 1⟩]) = "Alice" := by
  obtain ⟨r0, rest, rfl⟩ : ∃ r0 rest, p = r0 :: rest := by
    cases p with
    | nil => exact absurd rfl hp
    | cons a l => exact ⟨a, l, rfl⟩
  have hne : (subTokens m).isEmpty = false := by
    cases h : subTokens m with
    | nil => exact absurd h hm
    | cons a l => rfl
  have hrep : replaceInParagraph (subTokens m) (r0 :: rest)
      = ⟨(applyTokens (subTokens m) (concatRuns (r0 :: rest))).1, r0.style⟩
        :: rest.map (fun r => ⟨"", r.style⟩) := by
    unfold replaceInParagraph
    simp only [hne, Bool.false_eq_true, if_false, hch, if_true]
  refine ⟨?_, ?_, ?_, by decide, by decide⟩
  · rw [hrep]
    simpa using map_text_blank rest
  · rw [hrep]
    simp [List.map_map, Function.comp]
  · rw [hrep, concatRuns_cons, concatRuns_blank]
    simp

/-- Witness for C1 at the split-token scenario. -/
theorem C1_runsafe_substitution_witness :
    (subTokens [("NAME", "Alice")] ≠ [] ∧
     ([⟨"\x7b\x7bNA", 0⟩, ⟨"ME\x7d\x7d", 1⟩] : List Run) ≠ [] ∧
     (applyTokens (subTokens [("NAME", "Alice")])
        (concatRuns [⟨"\x7b\x7bNA", 0⟩, ⟨"ME\x7d\x7d", 1⟩])).2 = true) ∧
    concatRuns (replaceInParagraph (subTokens [("NAME", "Alice")])
        [⟨"\x7b\x7bNA", 0⟩, ⟨"ME\x7d\x7d", 1⟩]) = "Alice" :=
  ⟨⟨by decide, by decide, by decide⟩,
   (C1_runsafe_substitution [("NAME", "Alice")] [⟨"\x7b\x7bNA", 0⟩, ⟨"ME\x7d\x7d", 1⟩]
     (by decide) (by decide) (by decide)).2.2.2.2⟩

/-- Claim C7: a paragraph in which no mapped token occurs is returned exactly
as it was, all run texts, boundaries and styles untouched; tokens whose key
is absent from the map are left verbatim, braces included, as in the concrete
paragraph carrying an unmapped OTHER token. -/
theorem C7_unmatched_paragraph_frame (m : List (String × String)) (p : List Run)
    (h : ∀ kv ∈ subTokens m, strContains (concatRuns p) kv.1 = false) :
    replaceInParagraph (subTokens m) p = p ∧
    replaceInParagraph (subTokens [("NAME", "Alice")])
        [⟨"Dear \x7b\x7bOTHER\x7d\x7d,", 0⟩, ⟨" hi", 1⟩]
      = [⟨"Dear \x7b\x7bOTHER\x7d\x7d,", 0⟩, ⟨" hi", 1⟩] := by
  constructor
  · unfold replaceInParagraph
    cases he : (subTokens m).isEmpty
    · simp only [he, Bool.false_eq_true, if_false,
        applyTokens_no_occur (subTokens m) (concatRuns p) h]
    · simp [he]
  · decide

/-- Witness for C7 at the unmapped-token paragraph. -/
theorem C7_unmatched_paragraph_frame_witness :
    (∀ kv ∈ subTokens [("NAME", "Alice")],
       strContains (concatRuns [(⟨"Dear \x7b\x7bOTHER\x7d\x7d,", 0⟩ : Run), ⟨" hi", 1⟩])
         kv.1 = false) ∧
    replaceInParagraph (subTokens [("NAME", "Alice")])
        [⟨"Dear \x7b\x7bOTHER\x7d\x7d,", 0⟩, ⟨" hi", 1⟩]
      = [⟨"Dear \x7b\x7bOTHER\x7d\x7d,", 0⟩, ⟨" hi", 1⟩] :=
  ⟨by decide, (C7_unmatched_paragraph_frame [("NAME", "Alice")] _ (by decide)).1⟩

theorem fillRowsAux_length (cols : Nat) :
    ∀ (rs : List (List (Option String))) (l : List (List String)),
    fillRowsAux cols rs = some l → l.length = rs.length
  | [], l, h => by
    simp [fillRowsAux] at h
    simp [h.symm]
  | r :: rs, l, h => by
    unfold fillRowsAux at h
    cases hw : writeRow cols r with
    | none => rw [hw] at h; exact absurd h (by simp)
    | some cs =>
      rw [hw] at h
      cases hf : fillRowsAux cols rs with
      | none => rw [hf] at h; exact absurd h (by simp)
      | some ns =>
        rw [hf] at h
        have : cs :: ns = l := by simpa using h
        have hlen := fillRowsAux_length cols rs ns hf
        simp [this.symm, hlen]

/-- Claim C9: populating (clear keeping the header row, then fill) is
idempotent on tables that have a header row: a second clear-and-fill with the
same row list reproduces exactly the first result, since clearing removes
precisely the previously appended body rows; and a successful populate yields
the original header plus one appended row per input row. -/
theorem C9_populate_idempotent (t : Table) (rows : List (List (Option String)))
    (h : t.rows ≠ []) :
    (fill_table (clear_table_keep_header t) rows).bind
        (fun u => fill_table (clear_table_keep_header u) rows)
      = fill_table (clear_table_keep_header t) rows ∧
    (∀ u, fill_table (clear_table_keep_header t) rows = some u →
       u.rows.length = 1 + rows.length ∧ u.rows.head? = t.rows.head? ∧ u.cols = t.cols) := by
  obtain ⟨cols, trows⟩ := t
  obtain ⟨a, rs, rfl⟩ : ∃ a rs, trows = a :: rs := by
    cases trows with
    | nil => exact absurd rfl h
    | cons a l => exact ⟨a, l, rfl⟩
  cases hf : fillRowsAux cols rows with
  | none =>
    constructor
    · simp [fill_table, clear_table_keep_header, hf]
    · intro u hu
      simp [fill_table, clear_table_keep_header, hf] at hu
  | some ns =>
    constructor
    · simp [fill_table, clear_table_keep_header, hf, List.take_cons, Option.bind]
    · intro u hu
      simp [fill_table, clear_table_keep_header, hf, List.take_cons] at hu
      rw [hu.symm]
      simp [fillRowsAux_length cols rows ns hf, Nat.add_comm]

/-- Witness for C9 at a one-row fill of the sample template table. -/
theorem C9_populate_idempotent_witness :
    sampleGoodTable.rows ≠ [] ∧
    (fill_table (clear_table_keep_header sampleGoodTable)
        [[some "a", some "b", some "c", some "d"]]).bind
      (fun u => fill_table (clear_table_keep_header u)
        [[some "a", some "b", some "c", some "d"]])
    = fill_table (clear_table_keep_header sampleGoodTable)
        [[some "a", some "b", some "c", some "d"]] :=
  ⟨by decide,
   (C9_populate_idempotent sampleGoodTable [[some "a", some "b", some "c", some "d"]]
     (by decide)).1⟩

theorem findScanIdx_first_match :
    ∀ (pre : List Table) (t : Table) (post : List Table) (base : Nat) (cand : Option Nat),
    (∀ u ∈ pre, header_matches u = false) → header_matches t = true →
    findScanIdx (pre ++ t :: post) base cand = some (base + pre.length)
  | [], t, post, base, cand, _, ht => by
    simp [findScanIdx, ht]
  | u :: pre, t, post, base, cand, hpre, ht => by
    have hu := hpre u (by simp)
    have ih := findScanIdx_first_match pre t post (base + 1)
      (if u.cols = 4 then some base else cand)
      (fun x hx => hpre x (by simp [hx])) ht
    simp only [List.cons_append, findScanIdx, hu, Bool.false_eq_true, if_false,
      List.append_eq]
    rw [ih, List.length_cons]
    congr 1
    omega

theorem find_target_first_match (pre : List Table) (t : Table) (post : List Table)
    (hpre : ∀ u ∈ pre, header_matches u = false) (ht : header_matches t = true) :
    find_target_table (pre ++ t :: post) Option.none = some t := by
  unfold find_target_table find_target_index
  rw [findScanIdx_first_match pre t post 0 Option.none hpre ht]
  simp only [Nat.zero_add, Option.some_bind]
  rw [List.getElem?_append_right (Nat.le_refl pre.length)]
  simp

theorem findScanIdx_no_match :
    ∀ (ts : List Table) (base : Nat) (cand : Option Nat),
    (∀ u ∈ ts, header_matches u = false) →
    findScanIdx ts base cand
      = (match lastIdx4 ts with
         | some j => some (base + j)
         | Option.none => cand)
  | [], base, cand, _ => rfl
  | t :: ts, base, cand, h => by
    have ht := h t (by simp)
    have ih := findScanIdx_no_match ts (base + 1) (if t.cols = 4 then some base else cand)
      (fun x hx => h x (by simp [hx]))
    simp only [findScanIdx, ht, Bool.false_eq_true, if_false]
    rw [ih]
    cases hl : lastIdx4 ts with
    | some j =>
      simp only [lastIdx4, hl]
      congr 1
      omega
    | none =>
      simp only [lastIdx4, hl]
      by_cases hc : t.cols = 4
      · simp [hc]
      · simp [hc]

theorem lastIdx4_none_iff :
    ∀ ts : List Table, lastIdx4 ts = Option.none ↔ ts.filter (fun u => u.cols == 4) = []
  | [] => by simp [lastIdx4]
  | t :: ts => by
    have ih := lastIdx4_none_iff ts
    cases hl : lastIdx4 ts with
    | some j =>
      simp only [lastIdx4, hl, List.filter_cons]
      constructor
      · intro h; exact absurd h (by simp)
      · intro h
        have : ts.filter (fun u => u.cols == 4) = [] := by
          by_cases hc : (t.cols == 4)
          · rw [if_pos hc] at h; exact absurd h (by simp)
          · rwa [if_neg hc] at h
        exact absurd (ih.mpr this) (by simp [hl])
    | none =>
      have hf := ih.mp hl
      simp only [lastIdx4, hl, List.filter_cons, hf]
      by_cases hc : t.cols = 4
      · simp [hc]
      · simp [hc]

theorem lastIdx4_getElem :
    ∀ ts : List Table,
    (lastIdx4 ts).bind (fun j => ts[j]?) = (ts.filter (fun u => u.cols == 4)).getLast?
  | [] => rfl
  | t :: ts => by
    have ih := lastIdx4_getElem ts
    cases hl : lastIdx4 ts with
    | some j =>
      rw [hl] at ih
      have hne : ts.filter (fun u => u.cols == 4) ≠ [] := by
        intro h
        exact absurd ((lastIdx4_none_iff ts).mpr h) (by simp [hl])
      obtain ⟨c, cs, hcs⟩ : ∃ c cs, ts.filter (fun u => u.cols == 4) = c :: cs := by
        cases hx : ts.filter (fun u => u.cols == 4) with
        | nil => exact absurd hx hne
        | cons c cs => exact ⟨c, cs, rfl⟩
      simp only [lastIdx4, hl, Option.bind_some, List.filter_cons]
      by_cases hc : (t.cols == 4)
      · rw [if_pos hc, hcs, List.getLast?_cons_cons]
        rw [hcs] at ih
        simpa using ih
      · rw [if_neg hc, hcs]
        rw [hcs] at ih
        simpa using ih
    | none =>
      have hf := (lastIdx4_none_iff ts).mp hl
      simp only [lastIdx4, hl, List.filter_cons, hf]
      by_cases hc : t.cols = 4
      · simp [hc]
      · simp [hc]

theorem find_target_no_match (ts : List Table)
    (h : ∀ u ∈ ts, header_matches u = false) :
    find_target_table ts Option.none = (ts.filter (fun u => u.cols == 4)).getLast? := by
  unfold find_target_table find_target_index
  rw [findScanIdx_no_match ts 0 Option.none h]
  cases hl : lastIdx4 ts with
  | none =>
    simp only [Option.none_bind]
    rw [(lastIdx4_none_iff ts).mp hl]
    rfl
  | some j =>
    have := lastIdx4_getElem ts
    rw [hl] at this
    simpa using this

theorem foldlM_setCell_some (v : Nat → String) :
    ∀ (idxs : List Nat) (cells : List String),
    (∀ i ∈ idxs, i < cells.length) →
    ∃ cs, idxs.foldlM (fun cl i => setCellText cl i (v i)) cells = some cs ∧
      cs.length = cells.length
  | [], cells, _ => ⟨cells, rfl, rfl⟩
  | i :: idxs, cells, h => by
    have hi : i < cells.length := h i (by simp)
    have hset : setCellText cells i (v i) = some (cells.set i (v i)) := by
      simp [setCellText, hi]
    obtain ⟨cs, hcs, hlen⟩ := foldlM_setCell_some v idxs (cells.set i (v i))
      (fun j hj => by
        rw [List.length_set]
        exact h j (by simp [hj]))
    refine ⟨cs, ?_, by rw [hlen, List.length_set]⟩
    simpa [List.foldlM_cons, hset] using hcs

theorem writeRow_some (cols : Nat) (r : List (Option String)) (h : 4 ≤ cols) :
    ∃ cs, writeRow cols r = some cs := by
  obtain ⟨cs, hcs, _⟩ := foldlM_setCell_some
    (fun i => ((r.getD i Option.none)).getD "")
    (List.range (min 4 r.length)) (List.replicate cols "")
    (fun i hi => by
      rw [List.length_replicate]
      have := List.mem_range.mp hi
      omega)
  exact ⟨cs, hcs⟩

theorem fillRowsAux_some (cols : Nat) (h : 4 ≤ cols) :
    ∀ rows : List (List (Option String)), ∃ ns, fillRowsAux cols rows = some ns
  | [] => ⟨[], rfl⟩
  | r :: rows => by
    obtain ⟨cs, hcs⟩ := writeRow_some cols r h
    obtain ⟨ns, hns⟩ := fillRowsAux_some cols h rows
    exact ⟨cs :: ns, by simp [fillRowsAux, hcs, hns]⟩

/-- Claim C10: the header-matching pass of the locator carries no
column-count requirement (a header-matching table is returned whatever its
column count, as the three- and five-column samples show), the filler bounds
its writes only by the row length capped at four, so any table with at least
four columns is always filled successfully, while the located three-column
sample table fails to fill a four-value row with an index error. -/
theorem C10_locator_fill_bounds :
    (∀ (pre post : List Table) (t : Table),
       (∀ u ∈ pre, header_matches u = false) → header_matches t = true →
       find_target_table (pre ++ t :: post) Option.none = some t) ∧
    (∀ (t : Table) (rows : List (List (Option String))),
       4 ≤ t.cols → (fill_table t rows).isSome = true) ∧
    header_matches sampleThreeColTable = true ∧
    sampleThreeColTable.cols = 3 ∧
    find_target_table [sampleThreeColTable] Option.none = some sampleThreeColTable ∧
    fill_table sampleThreeColTable [[some "a", some "b", some "c", some "d"]]
      = Option.none ∧
    header_matches sampleFiveColTable = true ∧
    sampleFiveColTable.cols = 5 ∧
    find_target_table [sampleFiveColTable] Option.none = some sampleFiveColTable := by
  refine ⟨fun pre post t => find_target_first_match pre t post, ?_, by decide, by decide,
    by decide, by decide, by decide, by decide, by decide⟩
  intro t rows h
  obtain ⟨ns, hns⟩ := fillRowsAux_some t.cols h rows
  simp [fill_table, hns]

/-- Witness for C10: the general conjuncts applied at the three-column
matching table and at the four-column sample table. -/
theorem C10_locator_fill_bounds_witness :
    ((∀ u ∈ ([] : List Table), header_matches u = false) ∧
     header_matches sampleThreeColTable = true ∧
     find_target_table ([] ++ sampleThreeColTable :: []) Option.none
       = some sampleThreeColTable) ∧
    (4 ≤ sampleGoodTable.cols ∧
     (fill_table sampleGoodTable [[some "a", some "b", some "c", some "d"]]).isSome
       = true) :=
  ⟨⟨by simp, by decide,
    C10_locator_fill_bounds.1 [] [] sampleThreeColTable (by simp) (by decide)⟩,
   ⟨by decide,
    C10_locator_fill_bounds.2.1 sampleGoodTable [[some "a", some "b", some "c", some "d"]]
      (by decide)⟩⟩

/-- Claim C2: the locator returns the table at the preferred index
immediately when that index is given, nonnegative, in range and the table has
exactly four columns; in every other preferred-index situation it behaves as
the plain scan; the scan returns the first header-matching table in document
order; and when no table header-matches it returns the last four-column table
encountered, or none when no four-column table exists. -/
theorem C2_table_locator :
    (∀ (tables : List Table) (i : Int) (t : Table),
       tables[i.toNat]? = some t → 0 ≤ i → t.cols = 4 →
       find_target_table tables (some i) = some t) ∧
    (∀ (tables : List Table) (i : Int),
       (∀ t, tables[i.toNat]? = some t → ¬(0 ≤ i ∧ t.cols = 4)) →
       find_target_table tables (some i) = find_target_table tables Option.none) ∧
    (∀ (pre post : List Table) (t : Table),
       (∀ u ∈ pre, header_matches u = false) → header_matches t = true →
       find_target_table (pre ++ t :: post) Option.none = some t) ∧
    (∀ tables : List Table, (∀ u ∈ tables, header_matches u = false) →
       find_target_table tables Option.none
         = (tables.filter (fun u => u.cols == 4)).getLast?) := by
  refine ⟨?_, ?_, fun pre post t => find_target_first_match pre t post,
    find_target_no_match⟩
  · intro tables i t hget hi hc
    simp only [find_target_table, find_target_index, hget]
    simp [hi, hc, hget]
  · intro tables i h
    cases hget : tables[i.toNat]? with
    | none => simp only [find_target_table, find_target_index, hget]
    | some t =>
      have hnot := h t hget
      have hcond : (decide (0 ≤ i) && decide (t.cols = 4)) = false := by
        by_cases h0 : 0 ≤ i
        · by_cases h4 : t.cols = 4
          · exact absurd ⟨h0, h4⟩ hnot
          · simp [h4]
        · simp [h0]
      simp only [find_target_table, find_target_index, hget, hcond,
        Bool.false_eq_true, if_false]

/-- Witness for C2: the preferred-index hit, the fall-through to the scan,
the first header match, and the last-four-column fallback, each at concrete
tables. -/
theorem C2_table_locator_witness :
    (([samplePlainTable, sampleGoodTable] : List Table)[(1 : Int).toNat]?
        = some sampleGoodTable ∧
     find_target_table [samplePlainTable, sampleGoodTable] (some 1)
        = some sampleGoodTable) ∧
    find_target_table [sampleThreeColTable] (some 0)
        = find_target_table [sampleThreeColTable] Option.none ∧
    find_target_table [samplePlainTable, sampleGoodTable] Option.none
        = some sampleGoodTable ∧
    find_target_table [⟨3, [["a", "b", "c"]]⟩, samplePlainTable] Option.none
        = (([⟨3, [["a", "b", "c"]]⟩, samplePlainTable] : List Table).filter
            (fun u => u.cols == 4)).getLast? :=
  ⟨⟨by decide,
    C2_table_locator.1 [samplePlainTable, sampleGoodTable] 1 sampleGoodTable
      (by decide) (by decide) (by decide)⟩,
   C2_table_locator.2.1 [sampleThreeColTable] 0
     (fun t ht hc => by
       have he : t = sampleThreeColTable := by
         have h0 : ([sampleThreeColTable] : List Table)[(0 : Int).toNat]?
             = some sampleThreeColTable := by decide
         rw [h0] at ht
         exact (Option.some_inj.mp ht).symm
       rw [he] at hc
       exact absurd hc.2 (by decide)),
   C2_table_locator.2.2.1 [samplePlainTable] [] sampleGoodTable
     (by
       intro u hu
       simp at hu
       rw [hu]
       decide)
     (by decide),
   C2_table_locator.2.2.2 [⟨3, [["a", "b", "c"]]⟩, samplePlainTable]
     (by
       intro u hu
       simp at hu
       rcases hu with h | h <;> rw [h] <;> decide)⟩

theorem find?_append_of_none {α : Type} (p : α → Bool) :
    ∀ (pre l : List α), (∀ a ∈ pre, p a = false) →
    List.find? p (pre ++ l) = List.find? p l
  | [], l, _ => rfl
  | a :: pre, l, h => by
    have ha := h a (by simp)
    have ih := find?_append_of_none p pre l (fun x hx => h x (by simp [hx]))
    simp only [List.cons_append, List.find?_cons, ha]
    exact ih

/-- Claim C3: whenever some header normalizes exactly to one of a role's
synonyms, the mapper assigns that role the first such exact-matching header
in declaration order, regardless of headers elsewhere that merely contain a
synonym as a substring: the exact pass runs before, and preempts, the
substring pass, and ties break by header order. -/
theorem C3_exact_over_partial (r : Role) (pre post : List String) (h : String)
    (hmem : norm h ∈ SYNONYMS r)
    (hpre : ∀ g ∈ pre, norm g ∉ SYNONYMS r) :
    List.lookup (roleKey r) (guess_mapping (pre ++ h :: post)) = some (some h) := by
  have hexact : pickExact (pre ++ h :: post) (SYNONYMS r) = some h := by
    unfold pickExact
    rw [find?_append_of_none _ pre _ (fun a ha => by simpa using hpre a ha)]
    simp [List.find?_cons, hmem]
  have hpick : pickRole (pre ++ h :: post) (SYNONYMS r) = some h := by
    unfold pickRole
    rw [hexact]
  cases r <;> simp [guess_mapping, roleKey, List.lookup, hpick]

/-- Witness for C3: a header list whose first entry only contains the synonym
actor as a substring while the second is the exact (normalized) match; the
mapper still picks the exact one. -/
theorem C3_exact_over_partial_witness :
    norm "  ACTOR " ∈ SYNONYMS Role.actor ∧
    (∀ g ∈ ["mi actor favorito"], norm g ∉ SYNONYMS Role.actor) ∧
    List.lookup (roleKey Role.actor)
        (guess_mapping (["mi actor favorito"] ++ "  ACTOR " :: ["fecha"]))
      = some (some "  ACTOR ") :=
  ⟨by decide, by decide,
   C3_exact_over_partial Role.actor ["mi actor favorito"] ["fecha"] "  ACTOR "
     (by decide) (by decide)⟩

theorem tsBefore_asymm (nf : Bool) (a b : Option Int)
    (h : tsBefore nf a b = true) : tsBefore nf b a = false := by
  cases a with
  | none => simp [tsBefore] at h
  | some x =>
    cases b with
    | none => simp [tsBefore]
    | some y =>
      cases nf <;> simp [tsBefore] at h ⊢ <;> omega

theorem tsBefore_trans (nf : Bool) (a b c : Option Int)
    (hab : tsBefore nf a b = true) (hbc : tsBefore nf b c = true) :
    tsBefore nf a c = true := by
  cases a with
  | none => simp [tsBefore] at hab
  | some x =>
    cases b with
    | none => simp [tsBefore] at hbc
    | some y =>
      cases c with
      | none => simp [tsBefore]
      | some z =>
        cases nf <;> simp [tsBefore] at hab hbc ⊢ <;> omega

theorem mem_insertRowSorted (nf : Bool) (x z : PRow) :
    ∀ l : List PRow, z ∈ insertRowSorted nf x l → z = x ∨ z ∈ l
  | [], h => by
    simp [insertRowSorted] at h
    exact Or.inl h
  | y :: ys, h => by
    unfold insertRowSorted at h
    by_cases hxy : tsBefore nf x.fechaTs y.fechaTs = true
    · rw [if_pos hxy] at h
      rcases List.mem_cons.mp h with h1 | h1
      · exact Or.inl h1
      · exact Or.inr h1
    · rw [if_neg hxy] at h
      rcases List.mem_cons.mp h with h1 | h1
      · exact Or.inr (by simp [h1])
      · rcases mem_insertRowSorted nf x z ys h1 with h2 | h2
        · exact Or.inl h2
        · exact Or.inr (by simp [h2])

theorem pairwise_insertRowSorted (nf : Bool) (x : PRow) :
    ∀ l : List PRow,
    List.Pairwise (fun a b => tsBefore nf b.fechaTs a.fechaTs = false) l →
    List.Pairwise (fun a b => tsBefore nf b.fechaTs a.fechaTs = false)
      (insertRowSorted nf x l)
  | [], _ => by simp [insertRowSorted]
  | y :: ys, hp => by
    rw [List.pairwise_cons] at hp
    obtain ⟨hy, hys⟩ := hp
    unfold insertRowSorted
    by_cases hxy : tsBefore nf x.fechaTs y.fechaTs = true
    · rw [if_pos hxy]
      refine List.pairwise_cons.mpr ⟨?_, List.pairwise_cons.mpr ⟨hy, hys⟩⟩
      intro z hz
      rcases List.mem_cons.mp hz with rfl | hz1
      · exact tsBefore_asymm nf x.fechaTs z.fechaTs hxy
      · by_contra hzx
        have hzx1 : tsBefore nf z.fechaTs x.fechaTs = true := by
          cases hb : tsBefore nf z.fechaTs x.fechaTs
          · exact absurd hb hzx
          · rfl
        have := tsBefore_trans nf z.fechaTs x.fechaTs y.fechaTs hzx1 hxy
        exact absurd this (by simp [hy z hz1])
    · rw [if_neg hxy]
      refine List.pairwise_cons.mpr ⟨?_, pairwise_insertRowSorted nf x ys hys⟩
      intro z hz
      rcases mem_insertRowSorted nf x z ys hz with rfl | hz1
      · cases hb : tsBefore nf z.fechaTs y.fechaTs
        · rfl
        · exact absurd hb hxy
      · exact hy z hz1

theorem perm_insertRowSorted (nf : Bool) (x : PRow) :
    ∀ l : List PRow, List.Perm (insertRowSorted nf x l) (x :: l)
  | [] => List.Perm.refl _
  | y :: ys => by
    unfold insertRowSorted
    by_cases hxy : tsBefore nf x.fechaTs y.fechaTs = true
    · rw [if_pos hxy]
    · rw [if_neg hxy]
      exact ((perm_insertRowSorted nf x ys).cons y).trans (List.Perm.swap x y ys)

theorem sortRows_perm (nf : Bool) :
    ∀ rows : List PRow, List.Perm (sortRows nf rows) rows
  | [] => List.Perm.refl _
  | r :: rs => by
    have h1 : sortRows nf (r :: rs) = insertRowSorted nf r (sortRows nf rs) := rfl
    rw [h1]
    have h2 : List.Perm (insertRowSorted nf r (sortRows nf rs)) (r :: sortRows nf rs) :=
      perm_insertRowSorted nf r (sortRows nf rs)
    exact h2.trans ((sortRows_perm nf rs).cons r)

theorem sortRows_pairwise (nf : Bool) :
    ∀ rows : List PRow,
    List.Pairwise (fun a b => tsBefore nf b.fechaTs a.fechaTs = false) (sortRows nf rows)
  | [] => List.Pairwise.nil
  | r :: rs => pairwise_insertRowSorted nf r (sortRows nf rs) (sortRows_pairwise nf rs)

/-- Claim C6: before partitioning, the orchestrator's global sort arranges the
rows by canonical timestamp, ascending for newest-first false and descending
for newest-first true, with null timestamps last in either direction (no
later row has to precede an earlier one, and a permutation of the input);
concretely the rows dated 2024-01-01, 2024-03-01 and undated come out as
2024-03-01, 2024-01-01, undated under newest-first. -/
theorem C6_global_date_sort (nf : Bool) (rows : List PRow) :
    List.Perm (sortRows nf rows) rows ∧
    List.Pairwise (fun a b => tsBefore nf b.fechaTs a.fechaTs = false)
      (sortRows nf rows) ∧
    sortRows true [rowJan, rowMar, rowNull] = [rowMar, rowJan, rowNull] ∧
    rowJan.fechaTs = some (daysFromCivil 2024 1 1) ∧
    rowMar.fechaTs = some (daysFromCivil 2024 3 1) ∧
    rowNull.fechaTs = Option.none :=
  ⟨sortRows_perm nf rows, sortRows_pairwise nf rows,
   by decide, by decide, by decide, by decide⟩

/-- Counterexample for C8 as stated: with every one of the five required
roles resolving to a present column but the optional grupo role mapped to the
absent column G, preparation still fails (the column selection raises a
KeyError), so the missing-column failure is not equivalent to a required-role
violation and success is not guaranteed by the five required columns alone. -/
theorem C8_counterexample_grupo_keyerror :
    requiredRoles.all (fun k => !(roleFails sampleDF grupoBadMapping k)) = true ∧
    prepare_dataframe sampleDF grupoBadMapping = Except.error "KeyError: 'G'" := by
  exact ⟨by decide, by decide⟩

/-- Claim C8 (amended): preparation fails exactly when a required role is
absent, unset or mapped to a missing column, or when the optional grupo role
is set (truthy) but mapped to a missing column; on success the rows are the
projections of the raw rows, with the canonical timestamp obtained from the
date resolver on the date cell and the display field formatted from it; and
the mapper itself never fails: it always returns all six role keys. -/
theorem C8_prepare_required_check (df : DF) (mapping : List (String × Option String)) :
    ((∃ e, prepare_dataframe df mapping = Except.error e) ↔
       ((∃ k ∈ requiredRoles, roleFails df mapping k = true) ∨
        (∃ c, grupoCol mapping = some c ∧ df.cols.contains c = false))) ∧
    (∀ rs, prepare_dataframe df mapping = Except.ok rs →
       rs = df.rows.map (projectRow df mapping) ∧
       ∀ p ∈ rs, p.fechaTs = parse_date p.fecha ∧
         p.fechaFmt = format_date_dmy p.fechaTs) ∧
    (∀ hs : List String,
       (guess_mapping hs).map Prod.fst
         = ["actor", "mesa", "nivel", "fecha", "dato", "grupo"]) := by
  refine ⟨?_, ?_, fun hs => rfl⟩
  · cases hf : requiredRoles.find? (roleFails df mapping) with
    | some k =>
      constructor
      · intro
        exact Or.inl ⟨k, List.mem_of_find?_eq_some hf, List.find?_some hf⟩
      · intro
        exact ⟨"Columna requerida no encontrada para '" ++ k ++ "'.",
          by simp [prepare_dataframe, hf]⟩
    | none =>
      have hall := List.find?_eq_none.mp hf
      cases hg : grupoCol mapping with
      | none =>
        simp only [prepare_dataframe, hf, hg]
        constructor
        · intro ⟨e, he⟩
          exact absurd he (by simp)
        · intro h
          rcases h with ⟨k, hk, hfk⟩ | ⟨c, hc, _⟩
          · exact absurd hfk (by simpa using hall k hk)
          · exact absurd hc (by simp [hg])
      | some c =>
        cases hc : df.cols.contains c with
        | true =>
          simp only [prepare_dataframe, hf, hg, hc, if_true]
          constructor
          · intro ⟨e, he⟩
            exact absurd he (by simp)
          · intro h
            rcases h with ⟨k, hk, hfk⟩ | ⟨c2, hc2, hc3⟩
            · exact absurd hfk (by simpa using hall k hk)
            · have hce : c = c2 := Option.some_inj.mp hc2
              rw [hce.symm] at hc3
              exact absurd hc (by simpa using hc3)
        | false =>
          simp only [prepare_dataframe, hf, hg, hc, Bool.false_eq_true, if_false]
          constructor
          · intro
            exact Or.inr ⟨c, rfl, hc⟩
          · intro
            exact ⟨"KeyError: '" ++ c ++ "'", rfl⟩
  · intro rs hrs
    have hrs2 : rs = df.rows.map (projectRow df mapping) := by
      cases hf : requiredRoles.find? (roleFails df mapping) with
      | some k => simp [prepare_dataframe, hf] at hrs
      | none =>
        cases hg : grupoCol mapping with
        | none =>
          simp [prepare_dataframe, hf, hg] at hrs
          exact hrs.symm
        | some c =>
          cases hc : df.cols.contains c with
          | true =>
            have hmem : c ∈ df.cols := by simpa using hc
            simp [prepare_dataframe, hf, hg, hmem] at hrs
            exact hrs.symm
          | false =>
            have hmem : c ∉ df.cols := by simpa using hc
            simp [prepare_dataframe, hf, hg, hmem] at hrs
    refine ⟨hrs2, ?_⟩
    intro p hp
    rw [hrs2] at hp
    obtain ⟨row, _, hproj⟩ := List.mem_map.mp hp
    rw [hproj.symm]
    exact ⟨rfl, rfl⟩

/-- Witness for C8 at a dataframe where preparation succeeds. -/
theorem C8_prepare_required_check_witness :
    prepare_dataframe sampleDF sampleMapping
        = Except.ok (sampleDF.rows.map (projectRow sampleDF sampleMapping)) ∧
    (∀ p ∈ sampleDF.rows.map (projectRow sampleDF sampleMapping),
       p.fechaTs = parse_date p.fecha ∧ p.fechaFmt = format_date_dmy p.fechaTs) :=
  ⟨by decide,
   ((C8_prepare_required_check sampleDF sampleMapping).2.1
     (sampleDF.rows.map (projectRow sampleDF sampleMapping)) (by decide)).2⟩

theorem insertKV_append (m : List (String × String)) (k : String) (v : String)
    (h : ∀ p ∈ m, p.1 ≠ k) : insertKV m k v = m ++ [(k, v)] := by
  unfold insertKV
  have hany : (m.any fun p => p.1 = k) = false := by
    simp only [List.any_eq_false, decide_eq_true_eq]
    exact h
  simp [hany]

theorem insertKVDoc_append (m : List (String × Doc)) (k : String) (v : Doc)
    (h : ∀ p ∈ m, p.1 ≠ k) : insertKVDoc m k v = m ++ [(k, v)] := by
  unfold insertKVDoc
  have hany : (m.any fun p => p.1 = k) = false := by
    simp only [List.any_eq_false, decide_eq_true_eq]
    exact h
  simp [hany]

theorem generateFold_spec (template : Doc) (phs : List (String × List (String × String)))
    (tidx : Option Int) :
    ∀ (gs : List (Option String × List PRow)) (acc : GenResult),
    (∀ g ∈ gs, ∀ p ∈ acc.errors, p.1 ≠ grpDisplay g.1) →
    (∀ g ∈ gs, ∀ p ∈ acc.outputs, p.1 ≠ groupFname (grpDisplay g.1)) →
    List.Pairwise (fun a b => grpDisplay a.1 ≠ grpDisplay b.1) gs →
    List.Pairwise (fun a b =>
      groupFname (grpDisplay a.1) ≠ groupFname (grpDisplay b.1)) gs →
    gs.foldl (generateStep template phs tidx) acc
      = { outputs := acc.outputs
            ++ (gs.filter (buildOk template phs tidx)).map
               (fun g => (groupFname (grpDisplay g.1), buildDoc template phs tidx g)),
          errors := acc.errors
            ++ (gs.filter (fun g => !(buildOk template phs tidx g))).map
               (fun g => (grpDisplay g.1, buildErr template phs tidx g)),
          index := acc.index
            ++ (gs.filter (buildOk template phs tidx)).map
               (fun g => (grpDisplay g.1, (rows_from_group g.2).length)) }
  | [], acc, _, _, _, _ => by simp
  | g :: gs, acc, herr, hout, hnames, hfnames => by
    rw [List.foldl_cons]
    rw [List.pairwise_cons] at hnames hfnames
    cases hb : groupBuild template phs tidx g with
    | ok doc =>
      have hbok : buildOk template phs tidx g = true := by simp [buildOk, hb]
      have hbdoc : buildDoc template phs tidx g = doc := by simp [buildDoc, hb]
      have hstep : generateStep template phs tidx acc g
          = { acc with
              outputs := acc.outputs ++ [(groupFname (grpDisplay g.1), doc)],
              index := acc.index ++ [(grpDisplay g.1, (rows_from_group g.2).length)] } := by
        unfold generateStep
        rw [hb]
        simp [insertKVDoc_append acc.outputs (groupFname (grpDisplay g.1)) doc
          (fun p hp => hout g (by simp) p hp)]
      rw [hstep]
      rw [generateFold_spec template phs tidx gs
        { acc with
          outputs := acc.outputs ++ [(groupFname (grpDisplay g.1), doc)],
          index := acc.index ++ [(grpDisplay g.1, (rows_from_group g.2).length)] }
        (fun g2 hg2 p hp => herr g2 (by simp [hg2]) p hp)
        (fun g2 hg2 p hp => by
          rcases List.mem_append.mp hp with hp1 | hp1
          · exact hout g2 (by simp [hg2]) p hp1
          · have : p = (groupFname (grpDisplay g.1), doc) := by simpa using hp1
            rw [this]
            exact hfnames.1 g2 hg2)
        hnames.2 hfnames.2]
      simp [List.filter_cons, hbok, hbdoc, List.append_assoc]
    | error e =>
      have hbok : buildOk template phs tidx g = false := by simp [buildOk, hb]
      have hberr : buildErr template phs tidx g = e := by simp [buildErr, hb]
      have hstep : generateStep template phs tidx acc g
          = { acc with errors := acc.errors ++ [(grpDisplay g.1, e)] } := by
        unfold generateStep
        rw [hb]
        simp [insertKV_append acc.errors (grpDisplay g.1) e
          (fun p hp => herr g (by simp) p hp)]
      rw [hstep]
      rw [generateFold_spec template phs tidx gs
        { acc with errors := acc.errors ++ [(grpDisplay g.1, e)] }
        (fun g2 hg2 p hp => by
          rcases List.mem_append.mp hp with hp1 | hp1
          · exact herr g2 (by simp [hg2]) p hp1
          · have : p = (grpDisplay g.1, e) := by simpa using hp1
            rw [this]
            exact hnames.1 g2 hg2)
        (fun g2 hg2 p hp => hout g2 (by simp [hg2]) p hp)
        hnames.2 hfnames.2]
      simp [List.filter_cons, hbok, hberr, List.append_assoc]

theorem perm_insertIdxSorted (x : String × Nat) :
    ∀ l : List (String × Nat), List.Perm (insertIdxSorted x l) (x :: l)
  | [] => List.Perm.refl _
  | y :: ys => by
    unfold insertIdxSorted
    by_cases hxy : strBefore x.1 y.1 = true
    · rw [if_pos hxy]
    · rw [if_neg hxy]
      exact ((perm_insertIdxSorted x ys).cons y).trans (List.Perm.swap x y ys)

theorem sortIndex_perm : ∀ l : List (String × Nat), List.Perm (sortIndex l) l
  | [] => List.Perm.refl _
  | x :: xs =>
    (perm_insertIdxSorted x (sortIndex xs)).trans ((sortIndex_perm xs).cons x)

theorem length_filter_split {α : Type} (p : α → Bool) :
    ∀ l : List α, (l.filter p).length + (l.filter (fun a => !(p a))).length = l.length
  | [] => rfl
  | a :: l => by
    have ih := length_filter_split p l
    cases hp : p a <;> simp [List.filter_cons, hp] <;> omega

/-- Claim C5: a per-group build failure is recorded under that group's name
in the errors mapping and does not stop the batch: the orchestrator processes
every group, the errors mapping holds exactly the failing groups with their
messages, the outputs mapping holds exactly the successful groups' documents
under their filenames, the index holds one group/row-count row per successful
group only, and successes plus failures account for all groups (so three
groups with exactly one failure would give two outputs, one error and two
index rows). -/
theorem C5_group_failure_isolation (work : List PRow) (template : Doc)
    (groupKey : PRow → Option String) (phs : List (String × List (String × String)))
    (tidx : Option Int) (nf : Bool)
    (hnames : List.Pairwise (fun a b => grpDisplay a.1 ≠ grpDisplay b.1)
       (groupsOf (sortRows nf work) groupKey))
    (hfnames : List.Pairwise
       (fun a b => groupFname (grpDisplay a.1) ≠ groupFname (grpDisplay b.1))
       (groupsOf (sortRows nf work) groupKey)) :
    (generate_letters_per_group work template groupKey phs tidx nf).errors
      = ((groupsOf (sortRows nf work) groupKey).filter
          (fun g => !(buildOk template phs tidx g))).map
          (fun g => (grpDisplay g.1, buildErr template phs tidx g)) ∧
    (generate_letters_per_group work template groupKey phs tidx nf).outputs
      = ((groupsOf (sortRows nf work) groupKey).filter (buildOk template phs tidx)).map
          (fun g => (groupFname (grpDisplay g.1), buildDoc template phs tidx g)) ∧
    List.Perm (generate_letters_per_group work template groupKey phs tidx nf).index
      (((groupsOf (sortRows nf work) groupKey).filter (buildOk template phs tidx)).map
          (fun g => (grpDisplay g.1, (rows_from_group g.2).length))) ∧
    (generate_letters_per_group work template groupKey phs tidx nf).outputs.length
        + (generate_letters_per_group work template groupKey phs tidx nf).errors.length
      = (groupsOf (sortRows nf work) groupKey).length ∧
    (generate_letters_per_group work template groupKey phs tidx nf).index.length
      = (generate_letters_per_group work template groupKey phs tidx nf).outputs.length := by
  have hfold := generateFold_spec template phs tidx
    (groupsOf (sortRows nf work) groupKey) ⟨[], [], []⟩
    (fun g _ p hp => absurd hp (by simp))
    (fun g _ p hp => absurd hp (by simp))
    hnames hfnames
  have hgen : generate_letters_per_group work template groupKey phs tidx nf
      = { outputs := ((groupsOf (sortRows nf work) groupKey).filter
              (buildOk template phs tidx)).map
              (fun g => (groupFname (grpDisplay g.1), buildDoc template phs tidx g)),
          errors := ((groupsOf (sortRows nf work) groupKey).filter
              (fun g => !(buildOk template phs tidx g))).map
              (fun g => (grpDisplay g.1, buildErr template phs tidx g)),
          index := sortIndex (((groupsOf (sortRows nf work) groupKey).filter
              (buildOk template phs tidx)).map
              (fun g => (grpDisplay g.1, (rows_from_group g.2).length))) } := by
    unfold generate_letters_per_group
    simp only [hfold]
    simp
  rw [hgen]
  refine ⟨rfl, rfl, sortIndex_perm _, ?_, ?_⟩
  · simp only [List.length_map]
    have := length_filter_split (buildOk template phs tidx)
      (groupsOf (sortRows nf work) groupKey)
    omega
  · simp only [List.length_map]
    exact ((sortIndex_perm _).length_eq).trans (by simp)

/-- Witness for C5: with the three sample groups and the qualifying template
all three groups succeed and the batch accounts for all of them; with a
template holding no table at all, every group's failure is recorded in the
errors mapping with the no-qualifying-table message and the batch still runs
to completion. -/
theorem C5_group_failure_isolation_witness :
    ((generate_letters_per_group [rowJan, rowMar, rowNull] sampleTemplate actorKey
        [] Option.none true).outputs.length
      + (generate_letters_per_group [rowJan, rowMar, rowNull] sampleTemplate actorKey
        [] Option.none true).errors.length = 3) ∧
    (generate_letters_per_group [rowJan, rowMar, rowNull] emptyTemplate actorKey
        [] Option.none true).errors
      = [("A", "No se encontró una tabla válida (4 columnas) en la plantilla."),
         ("B", "No se encontró una tabla válida (4 columnas) en la plantilla."),
         ("C", "No se encontró una tabla válida (4 columnas) en la plantilla.")] :=
  ⟨((C5_group_failure_isolation [rowJan, rowMar, rowNull] sampleTemplate actorKey
      [] Option.none true (by decide) (by decide)).2.2.2.1).trans (by decide),
   ((C5_group_failure_isolation [rowJan, rowMar, rowNull] emptyTemplate actorKey
      [] Option.none true (by decide) (by decide)).1).trans (by decide)⟩
